import Mathlib

/-!
Shallow embedding of `src/image_stitcher.py` (class `ImageStitcher`).

The repository's own logic inspects only array shapes (`.shape`) and the
scalar correlation score returned by `cv2.minMaxLoc` after
`cv2.matchTemplate`; all pixel-level work (`cv2.imread`, `cv2.resize`,
`cv2.cvtColor`, `cv2.matchTemplate`, `np.vstack`) happens inside external
library calls.  The embedding therefore tracks a buffer by its dimensions
and abstracts the per-candidate correlation score as an oracle
`corr : Nat → ℚ` (the `max_val` of `cv2.minMaxLoc` for candidate overlap
size `s`), universally quantified in every theorem.  Floating-point
`int(m * 0.1)` / `int(m * 0.9)` are modelled as `m / 10` and `9 * m / 10`
on `Nat`: for image heights in any realistic range the IEEE-754 product
never crosses an integer boundary, so truncation agrees with the floor
divisions used here.  `cv2.imread` results are modelled as
`Option Image` inputs (`none` = unreadable file), and Python exceptions
as the `Except` error branch.
-/

/-- A raster buffer as the stitcher observes it: `img.shape[:2] = (height, width)`.
Pixel content is only ever consumed by external library calls, which the
theorems abstract by the correlation oracle. -/
structure Image where
  height : Nat
  width : Nat
deriving DecidableEq, Repr

/-- The mutable pair (`best_match_score`, `best_offset`) threaded through the
sweep loop of `find_overlap` (lines 49-50 initialise it to `(0, None)`). -/
structure SweepState where
  best_match_score : ℚ
  best_offset : Option Nat
deriving DecidableEq, Repr

/-- The `ValueError`s raised by `stitch_multiple_images`, plus the error
`np.vstack` would raise on a width mismatch (never reachable, proved below). -/
inductive StitchError where
  | emptyInput
  | unreadableFirst
  | widthMismatch
deriving DecidableEq, Repr

/-- Line 46: `min_overlap = int(min(h1, h2) * 0.1)`. -/
def min_overlap (h1 h2 : Nat) : Nat := min h1 h2 / 10

/-- Line 47: `max_overlap = int(min(h1, h2) * 0.9)`. -/
def max_overlap (h1 h2 : Nat) : Nat := 9 * min h1 h2 / 10

/-- Line 53: the candidate overlap sizes `range(max_overlap, min_overlap, -10)`:
`maxO, maxO - 10, ...`, every element strictly greater than `minO`. -/
def sweepSizes (maxO minO : Nat) : List Nat :=
  (List.range ((maxO - minO + 9) / 10)).map (fun i => maxO - 10 * i)

/-- Line 71 guard, negated: the template (height `s`) is no taller than the
grayscale search window (height `min (s + 100) h2`), so `cv2.matchTemplate`
is actually invoked for this candidate. -/
def templateFits (h2 s : Nat) : Prop := ¬ (min (s + 100) h2 < s)

instance (h2 s : Nat) : Decidable (templateFits h2 s) := by
  unfold templateFits; infer_instance

/-- One iteration of the sweep loop, lines 53-81: skip the candidate when the
template is taller than the search window (line 71), otherwise record
`(max_val, h1 - overlap_size)` when `max_val > best_match_score` and
`max_val >= overlap_threshold` (lines 79-81). -/
def sweepStep (corr : Nat → ℚ) (threshold : ℚ) (h1 h2 : Nat)
    (st : SweepState) (s : Nat) : SweepState :=
  if min (s + 100) h2 < s then st
  else if st.best_match_score < corr s ∧ threshold ≤ corr s then
    { best_match_score := corr s, best_offset := some (h1 - s) }
  else st

/-- The final `(best_match_score, best_offset)` pair after the whole sweep of
`find_overlap` (lines 46-81), starting from `(0, None)`. -/
def findOverlapState (corr : Nat → ℚ) (threshold : ℚ) (img1 img2 : Image) :
    SweepState :=
  (sweepSizes (max_overlap img1.height img2.height)
      (min_overlap img1.height img2.height)).foldl
    (sweepStep corr threshold img1.height img2.height)
    { best_match_score := 0, best_offset := none }

/-- Lines 23-88, `ImageStitcher.find_overlap`: returns `best_offset`
(`None` when no candidate was accepted).  Lines 42-43 compute
`search_height`/`search_start` from `search_region`, but neither value is
read afterwards in the source; the dead bindings are kept here. -/
def find_overlap (corr : Nat → ℚ) (threshold : ℚ) (img1 img2 : Image)
    (search_region : ℚ) : Option Nat :=
  let search_height : ℤ := ((img1.height : ℚ) * search_region).floor
  let search_start : ℤ := (img1.height : ℤ) - search_height
  (findOverlapState corr threshold img1 img2).best_offset

/-- `cv2.resize(img, (w, h))`: an external call; the result has width `w` and
height `h`. -/
def resize (img : Image) (w h : Nat) : Image :=
  { height := h, width := w }

/-- The NumPy slice `img[:n, :]`: the top `min n img.height` rows. -/
def topRows (img : Image) (n : Nat) : Image :=
  { height := min n img.height, width := img.width }

/-- `np.vstack([a, b])`: defined only when the widths agree, otherwise NumPy
raises (modelled as `none`). -/
def vstack (a b : Image) : Option Image :=
  if a.width = b.width then some { height := a.height + b.height, width := a.width }
  else none

/-- Lines 90-138, `ImageStitcher.stitch_two_images`: locate the overlap with
the default `search_region = 0.5`, equalise widths by resizing the narrower
buffer to `max w1 w2`, then either concatenate in full (no overlap) or stack
`img1[:overlap_offset, :]` on top of all of `img2`. -/
def stitch_two_images (corr : Nat → ℚ) (threshold : ℚ) (img1 img2 : Image) :
    Except StitchError Image :=
  match find_overlap corr threshold img1 img2 (1 / 2) with
  | none =>
      let h1 := img1.height
      let w1 := img1.width
      let h2 := img2.height
      let w2 := img2.width
      let imgs :=
        if w1 ≠ w2 then
          (if w1 < max w1 w2 then resize img1 (max w1 w2) h1 else img1,
           if w2 < max w1 w2 then resize img2 (max w1 w2) h2 else img2)
        else (img1, img2)
      match vstack imgs.1 imgs.2 with
      | some r => .ok r
      | none => .error .widthMismatch
  | some overlap_offset =>
      let h1 := img1.height
      let w1 := img1.width
      let h2 := img2.height
      let w2 := img2.width
      let imgs :=
        if w1 ≠ w2 then
          (if w1 < max w1 w2 then resize img1 (max w1 w2) h1 else img1,
           if w2 < max w1 w2 then resize img2 (max w1 w2) h2 else img2)
        else (img1, img2)
      let overlap_height := h1 - overlap_offset
      match vstack (topRows imgs.1 overlap_offset) imgs.2 with
      | some r => .ok r
      | none => .error .widthMismatch

/-- The `for` loop of lines 169-176: each unreadable load (`none`) is skipped
with a warning, each readable one is stitched onto the running composite; an
exception from the stitch step would propagate (the `.error` branch). -/
def stitchLoop (corr : Image → Image → Nat → ℚ) (threshold : ℚ) :
    Image → List (Option Image) → Except StitchError Image
  | acc, [] => .ok acc
  | acc, none :: rest => stitchLoop corr threshold acc rest
  | acc, some img :: rest =>
      match stitch_two_images (corr acc img) threshold acc img with
      | .ok r => stitchLoop corr threshold r rest
      | .error e => .error e

/-- Lines 140-179, `ImageStitcher.stitch_multiple_images`, with `cv2.imread`
results supplied as the list `loads`: empty input raises
`ValueError("No images provided")`; a single path is loaded and returned
unchanged; otherwise the first load seeds the composite (unreadable first
image raises) and the rest are folded by `stitchLoop`. -/
def stitch_multiple_images (corr : Image → Image → Nat → ℚ) (threshold : ℚ)
    (loads : List (Option Image)) : Except StitchError Image :=
  match loads with
  | [] => .error .emptyInput
  | [oimg] =>
      match oimg with
      | none => .error .unreadableFirst
      | some img => .ok img
  | ofirst :: rest =>
      match ofirst with
      | none => .error .unreadableFirst
      | some first => stitchLoop corr threshold first rest

theorem mem_sweepSizes (maxO minO s : Nat) :
    s ∈ sweepSizes maxO minO ↔ minO < s ∧ s ≤ maxO ∧ (maxO - s) % 10 = 0 := by
  unfold sweepSizes
  simp only [List.mem_map, List.mem_range]
  constructor
  · rintro ⟨i, hi, rfl⟩
    omega
  · rintro ⟨hlo, hhi, hmod⟩
    exact ⟨(maxO - s) / 10, by omega, by omega⟩

theorem sweepSizes_pairwise (maxO minO : Nat) :
    (sweepSizes maxO minO).Pairwise (· > ·) := by
  unfold sweepSizes
  rw [List.pairwise_iff_getElem]
  intro i j hi hj hij
  simp only [List.length_map, List.length_range] at hi hj
  simp only [List.getElem_map, List.getElem_range]
  omega

theorem foldl_sweepStep_char (corr : Nat → ℚ) (t : ℚ) (h1 h2 : Nat) :
    ∀ (l : List Nat), l.Pairwise (· > ·) → ∀ (st : SweepState),
      (l.foldl (sweepStep corr t h1 h2) st = st
          ∧ ∀ s ∈ l, templateFits h2 s → t ≤ corr s → corr s ≤ st.best_match_score)
        ∨ (∃ s ∈ l, templateFits h2 s ∧ t ≤ corr s ∧ st.best_match_score < corr s
            ∧ l.foldl (sweepStep corr t h1 h2) st
                = { best_match_score := corr s, best_offset := some (h1 - s) }
            ∧ (∀ s' ∈ l, templateFits h2 s' → t ≤ corr s' → corr s' ≤ corr s)
            ∧ (∀ s' ∈ l, s < s' → templateFits h2 s' → t ≤ corr s' →
                st.best_match_score < corr s' → corr s' < corr s)) := by
  intro l
  induction l with
  | nil => intro _ st; exact Or.inl ⟨rfl, by simp⟩
  | cons a l ih =>
    intro hp st
    rw [List.pairwise_cons] at hp
    obtain ⟨ha, hp'⟩ := hp
    rw [List.foldl_cons]
    by_cases hskip : min (a + 100) h2 < a
    · have hstep : sweepStep corr t h1 h2 st a = st := by
        simp [sweepStep, hskip]
      rw [hstep]
      have hnofit : ¬ templateFits h2 a := fun hf => hf hskip
      rcases ih hp' st with ⟨heq, hall⟩ | ⟨s, hs, hfit, hts, hlt, heq, hmax, htie⟩
      · refine Or.inl ⟨heq, ?_⟩
        intro s hsmem hfits hts
        rcases List.mem_cons.mp hsmem with rfl | hmem
        · exact absurd hfits hnofit
        · exact hall s hmem hfits hts
      · refine Or.inr ⟨s, List.mem_cons_of_mem _ hs, hfit, hts, hlt, heq, ?_, ?_⟩
        · intro s' hs' hf' ht'
          rcases List.mem_cons.mp hs' with rfl | hmem
          · exact absurd hf' hnofit
          · exact hmax s' hmem hf' ht'
        · intro s' hs' hss' hf' ht' hb'
          rcases List.mem_cons.mp hs' with rfl | hmem
          · exact absurd hf' hnofit
          · exact htie s' hmem hss' hf' ht' hb'
    · have hfita : templateFits h2 a := hskip
      by_cases hacc : st.best_match_score < corr a ∧ t ≤ corr a
      · have hstep : sweepStep corr t h1 h2 st a
            = { best_match_score := corr a, best_offset := some (h1 - a) } := by
          simp [sweepStep, hskip, hacc]
        rw [hstep]
        rcases ih hp' { best_match_score := corr a, best_offset := some (h1 - a) } with
          ⟨heq, hall⟩ | ⟨s, hs, hfit, hts, hlt, heq, hmax, htie⟩
        · refine Or.inr ⟨a, List.mem_cons_self _ _, hfita, hacc.2, hacc.1, heq, ?_, ?_⟩
          · intro s' hs' hf' ht'
            rcases List.mem_cons.mp hs' with rfl | hmem
            · exact le_refl _
            · exact hall s' hmem hf' ht'
          · intro s' hs' hss' hf' ht' hb'
            rcases List.mem_cons.mp hs' with rfl | hmem
            · exact absurd hss' (lt_irrefl _)
            · exact absurd hss' (not_lt.mpr (le_of_lt (ha s' hmem)))
        · have hlt' : corr a < corr s := hlt
          refine Or.inr ⟨s, List.mem_cons_of_mem _ hs, hfit, hts,
            lt_trans hacc.1 hlt', heq, ?_, ?_⟩
          · intro s' hs' hf' ht'
            rcases List.mem_cons.mp hs' with rfl | hmem
            · exact le_of_lt hlt'
            · exact hmax s' hmem hf' ht'
          · intro s' hs' hss' hf' ht' hb'
            rcases List.mem_cons.mp hs' with rfl | hmem
            · exact hlt'
            · by_cases hca : corr s' ≤ corr a
              · exact lt_of_le_of_lt hca hlt'
              · exact htie s' hmem hss' hf' ht' (not_le.mp hca)
      · have hstep : sweepStep corr t h1 h2 st a = st := by
          simp [sweepStep, hskip, hacc]
        rw [hstep]
        have hrej : t ≤ corr a → corr a ≤ st.best_match_score := by
          intro hta
          by_contra hcon
          exact hacc ⟨not_le.mp hcon, hta⟩
        rcases ih hp' st with ⟨heq, hall⟩ | ⟨s, hs, hfit, hts, hlt, heq, hmax, htie⟩
        · refine Or.inl ⟨heq, ?_⟩
          intro s' hs' hf' ht'
          rcases List.mem_cons.mp hs' with rfl | hmem
          · exact hrej ht'
          · exact hall s' hmem hf' ht'
        · refine Or.inr ⟨s, List.mem_cons_of_mem _ hs, hfit, hts, hlt, heq, ?_, ?_⟩
          · intro s' hs' hf' ht'
            rcases List.mem_cons.mp hs' with rfl | hmem
            · exact le_trans (hrej ht') (le_of_lt hlt)
            · exact hmax s' hmem hf' ht'
          · intro s' hs' hss' hf' ht' hb'
            rcases List.mem_cons.mp hs' with rfl | hmem
            · exact absurd (hrej ht') (not_le.mpr hb')
            · exact htie s' hmem hss' hf' ht' hb'

theorem findOverlapState_char (corr : Nat → ℚ) (t : ℚ) (img1 img2 : Image) :
    (findOverlapState corr t img1 img2 = { best_match_score := 0, best_offset := none }
        ∧ ∀ s ∈ sweepSizes (max_overlap img1.height img2.height)
              (min_overlap img1.height img2.height),
            templateFits img2.height s → t ≤ corr s → corr s ≤ 0)
      ∨ (∃ s ∈ sweepSizes (max_overlap img1.height img2.height)
              (min_overlap img1.height img2.height),
          templateFits img2.height s ∧ t ≤ corr s ∧ 0 < corr s
            ∧ findOverlapState corr t img1 img2
                = { best_match_score := corr s, best_offset := some (img1.height - s) }
            ∧ (∀ s' ∈ sweepSizes (max_overlap img1.height img2.height)
                  (min_overlap img1.height img2.height),
                templateFits img2.height s' → t ≤ corr s' → corr s' ≤ corr s)
            ∧ (∀ s' ∈ sweepSizes (max_overlap img1.height img2.height)
                  (min_overlap img1.height img2.height),
                s < s' → templateFits img2.height s' → t ≤ corr s' →
                  0 < corr s' → corr s' < corr s)) := by
  have h := foldl_sweepStep_char corr t img1.height img2.height
    (sweepSizes (max_overlap img1.height img2.height)
      (min_overlap img1.height img2.height))
    (sweepSizes_pairwise _ _)
    { best_match_score := 0, best_offset := none }
  exact h

theorem find_overlap_eq_state (corr : Nat → ℚ) (t : ℚ) (img1 img2 : Image) (r : ℚ) :
    find_overlap corr t img1 img2 r = (findOverlapState corr t img1 img2).best_offset :=
  rfl

theorem max_overlap_le_min (h1 h2 : Nat) : max_overlap h1 h2 ≤ min h1 h2 := by
  unfold max_overlap
  omega

theorem find_overlap_some_elim (corr : Nat → ℚ) (t : ℚ) (img1 img2 : Image)
    (r : ℚ) (o : Nat) (h : find_overlap corr t img1 img2 r = some o) :
    ∃ s ∈ sweepSizes (max_overlap img1.height img2.height)
        (min_overlap img1.height img2.height), o = img1.height - s := by
  rw [find_overlap_eq_state] at h
  rcases findOverlapState_char corr t img1 img2 with ⟨heq, _⟩ | ⟨s, hs, _, _, _, heq, _⟩
  · rw [heq] at h
    simp at h
  · rw [heq] at h
    exact ⟨s, hs, (Option.some.inj h).symm⟩

theorem find_overlap_offset_bounds (corr : Nat → ℚ) (t : ℚ) (img1 img2 : Image)
    (r : ℚ) (o : Nat) (h : find_overlap corr t img1 img2 r = some o) :
    o ≤ img1.height ∧ img1.height ≤ o + img2.height := by
  obtain ⟨s, hs, rfl⟩ := find_overlap_some_elim corr t img1 img2 r o h
  rw [mem_sweepSizes] at hs
  have hle := max_overlap_le_min img1.height img2.height
  omega

theorem normWidthPair (h1 w1 h2 w2 : Nat) :
    (if w1 ≠ w2 then
        (if w1 < max w1 w2 then resize ⟨h1, w1⟩ (max w1 w2) h1 else ⟨h1, w1⟩,
         if w2 < max w1 w2 then resize ⟨h2, w2⟩ (max w1 w2) h2 else ⟨h2, w2⟩)
      else ((⟨h1, w1⟩ : Image), (⟨h2, w2⟩ : Image)))
    = ((⟨h1, max w1 w2⟩ : Image), (⟨h2, max w1 w2⟩ : Image)) := by
  by_cases hw : w1 = w2
  · subst hw
    simp
  · rcases Nat.lt_or_ge w1 w2 with hlt | hge
    · have e : max w1 w2 = w2 := Nat.max_eq_right hlt.le
      simp [hw, e, hlt, Nat.lt_irrefl, resize]
    · have hlt : w2 < w1 := Nat.lt_of_le_of_ne hge (fun c => hw c.symm)
      have e : max w1 w2 = w1 := Nat.max_eq_left hge
      simp [hw, e, hlt, Nat.lt_irrefl, resize, Nat.not_lt.mpr hge]

theorem stitch_two_images_eq (corr : Nat → ℚ) (t : ℚ) (img1 img2 : Image) :
    stitch_two_images corr t img1 img2 =
      .ok { height :=
              match find_overlap corr t img1 img2 (1 / 2) with
              | some o => o + img2.height
              | none => img1.height + img2.height,
            width := max img1.width img2.width } := by
  obtain ⟨h1, w1⟩ := img1
  obtain ⟨h2, w2⟩ := img2
  cases hfo : find_overlap corr t ⟨h1, w1⟩ ⟨h2, w2⟩ (1 / 2) with
  | none =>
    unfold stitch_two_images
    rw [hfo]
    simp only [normWidthPair, vstack, topRows]
    simp
  | some o =>
    have hole : o ≤ h1 :=
      (find_overlap_offset_bounds corr t ⟨h1, w1⟩ ⟨h2, w2⟩ (1 / 2) o hfo).1
    unfold stitch_two_images
    rw [hfo]
    simp only [normWidthPair, vstack, topRows]
    simp [Nat.min_eq_left hole]

theorem stitch_two_height_bounds (corr : Nat → ℚ) (t : ℚ) (img1 img2 : Image)
    (res : Image) (h : stitch_two_images corr t img1 img2 = .ok res) :
    img1.height ≤ res.height ∧ img2.height ≤ res.height
      ∧ res.height ≤ img1.height + img2.height
      ∧ res.width = max img1.width img2.width := by
  rw [stitch_two_images_eq] at h
  cases hfo : find_overlap corr t img1 img2 (1 / 2) with
  | none =>
    rw [hfo] at h
    obtain rfl := (Except.ok.inj h).symm
    simp
  | some o =>
    have hb := find_overlap_offset_bounds corr t img1 img2 (1 / 2) o hfo
    rw [hfo] at h
    obtain rfl := (Except.ok.inj h).symm
    simp
    omega

theorem stitchLoop_total (corr : Image → Image → Nat → ℚ) (t : ℚ) :
    ∀ (l : List (Option Image)) (acc : Image),
      ∃ res : Image, stitchLoop corr t acc l = .ok res
        ∧ acc.height ≤ res.height
        ∧ res.height ≤ acc.height + ((l.filterMap id).map Image.height).sum
        ∧ ∀ img : Image, some img ∈ l → img.height ≤ res.height := by
  intro l
  induction l with
  | nil =>
    intro acc
    exact ⟨acc, rfl, le_refl _, by simp, by simp⟩
  | cons a rest ih =>
    intro acc
    cases a with
    | none =>
      obtain ⟨res, hres, hmono, hbound, hmem⟩ := ih acc
      refine ⟨res, hres, hmono, by simpa using hbound, ?_⟩
      intro img hm
      rcases List.mem_cons.mp hm with hcon | hmem'
      · cases hcon
      · exact hmem img hmem'
    | some b =>
      obtain ⟨mid, hmid⟩ : ∃ mid, stitch_two_images (corr acc b) t acc b = .ok mid :=
        ⟨_, stitch_two_images_eq (corr acc b) t acc b⟩
      obtain ⟨hm1, hm2, hm3, _⟩ := stitch_two_height_bounds (corr acc b) t acc b mid hmid
      obtain ⟨res, hres, hmono, hbound, hmem⟩ := ih mid
      refine ⟨res, ?_, le_trans hm1 hmono, ?_, ?_⟩
      · simp only [stitchLoop]
        rw [hmid]
        exact hres
      · simp only [List.filterMap_cons, id, List.map_cons, List.sum_cons]
        omega
      · intro img hm
        rcases List.mem_cons.mp hm with hcon | hmem'
        · obtain rfl := Option.some.inj hcon
          exact le_trans hm2 hmono
        · exact hmem img hmem'

theorem stitchLoop_filterMap (corr : Image → Image → Nat → ℚ) (t : ℚ) :
    ∀ (l : List (Option Image)) (acc : Image),
      stitchLoop corr t acc l
        = stitchLoop corr t acc ((l.filterMap id).map some) := by
  intro l
  induction l with
  | nil => intro acc; rfl
  | cons a rest ih =>
    intro acc
    cases a with
    | none =>
      have hfm : List.filterMap id (none :: rest) = rest.filterMap id := by simp
      rw [hfm]
      simp only [stitchLoop]
      exact ih acc
    | some b =>
      have hfm : List.filterMap id (some b :: rest) = b :: rest.filterMap id := by simp
      rw [hfm, List.map_cons]
      simp only [stitchLoop]
      cases hst : stitch_two_images (corr acc b) t acc b with
      | ok m => exact ih m
      | error e => rfl

/-- Correlation oracle used by concrete witnesses: every candidate scores 0. -/
def corrZero : Nat → ℚ := fun _ => 0

/-- Correlation oracle used by concrete witnesses: every candidate scores 1. -/
def corrOne : Nat → ℚ := fun _ => 1

/-- Claim C1: for every pair of buffers, `stitch_two_images` succeeds and
returns a buffer of width `max (width upper) (width lower)`, whose height is
`offset + height lower` when the overlap locator returns an offset and
`height upper + height lower` when it returns no overlap. -/
theorem claim_stitch_two_images_dims (corr : Nat → ℚ) (t : ℚ) (img1 img2 : Image) :
    stitch_two_images corr t img1 img2 =
      .ok { height :=
              match find_overlap corr t img1 img2 (1 / 2) with
              | some o => o + img2.height
              | none => img1.height + img2.height,
            width := max img1.width img2.width } :=
  stitch_two_images_eq corr t img1 img2

/-- Claim C3, counterexample: for two 100-row buffers, `minOverlap = 10` and
`maxOverlap = 90`, and `minOverlap` is reachable from `maxOverlap` in steps of
10, yet the sweep never iterates `minOverlap`: `range(90, 10, -10)` stops at
20, refuting "down to and including minOverlap". -/
theorem claim_sweep_includes_min_counterexample :
    min_overlap 100 100 = 10 ∧ max_overlap 100 100 = 90
      ∧ (max_overlap 100 100 - min_overlap 100 100) % 10 = 0
      ∧ min_overlap 100 100 ∉
          sweepSizes (max_overlap 100 100) (min_overlap 100 100) := by
  decide

/-- Claim C3, amended: with `minOverlap = floor(0.1 * min h1 h2)` and
`maxOverlap = floor(0.9 * min h1 h2)`, the locator iterates exactly the
candidate sizes `s` with `minOverlap < s ≤ maxOverlap` and
`s ≡ maxOverlap (mod 10)`, in strictly descending order: steps of 10 from
`maxOverlap` down to but excluding `minOverlap` (Python `range` excludes its
stop value). -/
theorem claim_sweep_spec (img1 img2 : Image) :
    (∀ s, s ∈ sweepSizes (max_overlap img1.height img2.height)
            (min_overlap img1.height img2.height)
        ↔ min_overlap img1.height img2.height < s
            ∧ s ≤ max_overlap img1.height img2.height
            ∧ (max_overlap img1.height img2.height - s) % 10 = 0)
      ∧ (sweepSizes (max_overlap img1.height img2.height)
            (min_overlap img1.height img2.height)).Pairwise (· > ·)
      ∧ min_overlap img1.height img2.height = min img1.height img2.height / 10
      ∧ max_overlap img1.height img2.height = 9 * min img1.height img2.height / 10 :=
  ⟨fun s => mem_sweepSizes _ _ s, sweepSizes_pairwise _ _, rfl, rfl⟩

/-- Claim C6: the result of `find_overlap` is identical for every value of the
`search_region` parameter — the source computes `search_height` and
`search_start` from it (lines 42-43) but never reads them afterwards. -/
theorem claim_search_region_irrelevant (corr : Nat → ℚ) (t : ℚ)
    (img1 img2 : Image) (r r' : ℚ) :
    find_overlap corr t img1 img2 r = find_overlap corr t img1 img2 r' := rfl

/-- Claim C7: degenerate geometry (`minOverlap >= maxOverlap`) makes
`find_overlap` return `None` (the sweep is empty) rather than raising, and a
candidate whose template is taller than its search window is skipped as
no-match by the loop body (line 71's `continue`) rather than thrown. -/
theorem claim_degenerate_no_exception (corr : Nat → ℚ) (t : ℚ)
    (img1 img2 : Image) (r : ℚ) (st : SweepState) (s : Nat) :
    (max_overlap img1.height img2.height ≤ min_overlap img1.height img2.height →
        find_overlap corr t img1 img2 r = none)
      ∧ (min (s + 100) img2.height < s →
          sweepStep corr t img1.height img2.height st s = st) := by
  constructor
  · intro hdeg
    rw [find_overlap_eq_state]
    have hempty : sweepSizes (max_overlap img1.height img2.height)
        (min_overlap img1.height img2.height) = [] := by
      unfold sweepSizes
      have hz : (max_overlap img1.height img2.height
          - min_overlap img1.height img2.height + 9) / 10 = 0 := by omega
      rw [hz]
      rfl
    unfold findOverlapState
    rw [hempty]
    rfl
  · intro hskip
    simp [sweepStep, hskip]

/-- Witness for C7: two 1x9 buffers are degenerate (`minOverlap = maxOverlap
= 0`) and yield `None`; a 300-row template against a 1-row window is skipped
leaving the sweep state unchanged. -/
theorem claim_degenerate_no_exception_witness :
    find_overlap corrZero 0 ⟨1, 9⟩ ⟨1, 9⟩ 0 = none
      ∧ sweepStep corrZero 0 1 1 ⟨0, none⟩ 300 = ⟨0, none⟩ :=
  ⟨(claim_degenerate_no_exception corrZero 0 ⟨1, 9⟩ ⟨1, 9⟩ 0 ⟨0, none⟩ 300).1
      (by decide),
   (claim_degenerate_no_exception corrZero 0 ⟨1, 9⟩ ⟨1, 9⟩ 0 ⟨0, none⟩ 300).2
      (by decide)⟩

/-- Claim C8: `stitch_multiple_images` on an empty sequence raises
`ValueError("No images provided")` for every configuration, rather than
returning a buffer. -/
theorem claim_empty_input_error (corr : Image → Image → Nat → ℚ) (t : ℚ) :
    stitch_multiple_images corr t [] = .error .emptyInput := rfl

/-- Correlation oracle used by the C2 witness: candidate size 90 scores 1,
all other candidates score 0. -/
def corrStepW : Nat → ℚ := fun s => if s = 90 then 1 else 0

/-- Claim C2: the sweep tracks the best `(max_val, overlap_size)` pair among
candidates scoring at least the threshold, replacing the current best only on
strictly greater correlation (so among equal scores the earliest — largest,
since the sweep descends — candidate wins); when a best exists the locator
returns the offset `h1 - s` with `best_match_score` equal to that maximal
correlation, otherwise `None`.  The initial best score is 0, so acceptance
additionally requires a strictly positive correlation. -/
theorem claim_best_pair_tracking (corr : Nat → ℚ) (t : ℚ) (img1 img2 : Image)
    (r : ℚ) :
    (∀ o, find_overlap corr t img1 img2 r = some o →
        ∃ s ∈ sweepSizes (max_overlap img1.height img2.height)
            (min_overlap img1.height img2.height),
          o = img1.height - s
            ∧ (findOverlapState corr t img1 img2).best_match_score = corr s
            ∧ templateFits img2.height s ∧ t ≤ corr s ∧ 0 < corr s
            ∧ (∀ s' ∈ sweepSizes (max_overlap img1.height img2.height)
                  (min_overlap img1.height img2.height),
                templateFits img2.height s' → t ≤ corr s' → corr s' ≤ corr s)
            ∧ (∀ s' ∈ sweepSizes (max_overlap img1.height img2.height)
                  (min_overlap img1.height img2.height),
                s < s' → templateFits img2.height s' → t ≤ corr s' →
                  0 < corr s' → corr s' < corr s))
      ∧ (find_overlap corr t img1 img2 r = none →
          ∀ s ∈ sweepSizes (max_overlap img1.height img2.height)
              (min_overlap img1.height img2.height),
            templateFits img2.height s → t ≤ corr s → corr s ≤ 0) := by
  constructor
  · intro o h
    rw [find_overlap_eq_state] at h
    rcases findOverlapState_char corr t img1 img2 with
      ⟨heq, _⟩ | ⟨s, hs, hfit, hts, hpos, heq, hmax, htie⟩
    · rw [heq] at h
      simp at h
    · rw [heq] at h
      obtain rfl := (Option.some.inj h).symm
      exact ⟨s, hs, rfl, by rw [heq], hfit, hts, hpos, hmax, htie⟩
  · intro h
    rcases findOverlapState_char corr t img1 img2 with
      ⟨_, hall⟩ | ⟨s, _, _, _, _, heq, _⟩
    · exact hall
    · rw [find_overlap_eq_state, heq] at h
      simp at h

/-- Witness for C2: a pair of 100-row buffers where candidate 90 scores 1 and
every other candidate scores 0, at threshold 1: the locator returns offset
`100 - 90 = 10` and the tracked best is the maximal eligible correlation. -/
theorem claim_best_pair_tracking_witness :
    ∃ s ∈ sweepSizes (max_overlap 100 100) (min_overlap 100 100),
      (10 : Nat) = 100 - s
        ∧ (findOverlapState corrStepW 1 ⟨100, 8⟩ ⟨100, 8⟩).best_match_score
            = corrStepW s
        ∧ templateFits 100 s ∧ (1 : ℚ) ≤ corrStepW s ∧ 0 < corrStepW s
        ∧ (∀ s' ∈ sweepSizes (max_overlap 100 100) (min_overlap 100 100),
            templateFits 100 s' → (1 : ℚ) ≤ corrStepW s' →
              corrStepW s' ≤ corrStepW s)
        ∧ (∀ s' ∈ sweepSizes (max_overlap 100 100) (min_overlap 100 100),
            s < s' → templateFits 100 s' → (1 : ℚ) ≤ corrStepW s' →
              0 < corrStepW s' → corrStepW s' < corrStepW s) :=
  (claim_best_pair_tracking corrStepW 1 ⟨100, 8⟩ ⟨100, 8⟩ 1).1 10
    (by decide)

/-- Claim C9: overlap detection is monotone non-increasing in the threshold —
`NotFound` at `t` stays `NotFound` at any `t' >= t` — and raising the
threshold strictly above every candidate's correlation forces `NotFound`. -/
theorem claim_threshold_monotone (corr : Nat → ℚ) (t t' : ℚ) (img1 img2 : Image)
    (r r' : ℚ) :
    (t ≤ t' → find_overlap corr t img1 img2 r = none →
        find_overlap corr t' img1 img2 r' = none)
      ∧ ((∀ s ∈ sweepSizes (max_overlap img1.height img2.height)
              (min_overlap img1.height img2.height),
            templateFits img2.height s → corr s < t') →
          find_overlap corr t' img1 img2 r' = none) := by
  constructor
  · intro htt hnone
    rw [find_overlap_eq_state] at hnone ⊢
    rcases findOverlapState_char corr t' img1 img2 with
      ⟨heq, _⟩ | ⟨s, hs, hfit, hts, hpos, heq, _⟩
    · rw [heq]
    · exfalso
      rcases findOverlapState_char corr t img1 img2 with
        ⟨heqt, hall⟩ | ⟨s2, _, _, _, _, heqt, _⟩
      · exact absurd hpos
          (not_lt.mpr (hall s hs hfit (le_trans htt hts)))
      · rw [heqt] at hnone
        simp at hnone
  · intro hlt
    rw [find_overlap_eq_state]
    rcases findOverlapState_char corr t' img1 img2 with
      ⟨heq, _⟩ | ⟨s, hs, hfit, hts, _, heq, _⟩
    · rw [heq]
    · exact absurd hts (not_le.mpr (hlt s hs hfit))

/-- Witness for C9: the all-zero oracle is `NotFound` at threshold 1, hence
also at threshold 2; and every candidate scores below 2, forcing `NotFound`. -/
theorem claim_threshold_monotone_witness :
    find_overlap corrZero 2 ⟨100, 5⟩ ⟨100, 5⟩ 0 = none
      ∧ find_overlap corrZero 2 ⟨100, 5⟩ ⟨100, 5⟩ 0 = none :=
  ⟨(claim_threshold_monotone corrZero 1 2 ⟨100, 5⟩ ⟨100, 5⟩ 0 0).1 (by decide)
      (by decide),
   (claim_threshold_monotone corrZero 1 2 ⟨100, 5⟩ ⟨100, 5⟩ 0 0).2 (by decide)⟩

/-- Claim C10: whenever `find_overlap` returns an offset — for any threshold,
including zero or negative — the winning correlation is strictly positive,
because `best_match_score` starts at 0 and only a strictly greater score can
install an offset. -/
theorem claim_positive_winning_score (corr : Nat → ℚ) (t : ℚ) (img1 img2 : Image)
    (r : ℚ) (o : Nat) (h : find_overlap corr t img1 img2 r = some o) :
    0 < (findOverlapState corr t img1 img2).best_match_score := by
  rw [find_overlap_eq_state] at h
  rcases findOverlapState_char corr t img1 img2 with
    ⟨heq, _⟩ | ⟨s, _, _, _, hpos, heq, _⟩
  · rw [heq] at h
    simp at h
  · rw [heq]
    exact hpos

/-- Witness for C10: with the all-one oracle and threshold -1 the locator
returns offset 10 and the tracked best score 1 is strictly positive. -/
theorem claim_positive_winning_score_witness :
    0 < (findOverlapState corrOne (-1) ⟨100, 5⟩ ⟨100, 5⟩).best_match_score :=
  claim_positive_winning_score corrOne (-1) ⟨100, 5⟩ ⟨100, 5⟩ 0 10 (by decide)

/-- Claim C4: the running composite's height never decreases across the fold
of `stitch_multiple_images`, and a successful final composite is at least as
tall as every readable input and at most the sum of the readable inputs'
heights. -/
theorem claim_monotone_height_growth (corr : Image → Image → Nat → ℚ) (t : ℚ) :
    (∀ (acc : Image) (l : List (Option Image)) (res : Image),
        stitchLoop corr t acc l = .ok res → acc.height ≤ res.height)
      ∧ (∀ (loads : List (Option Image)) (res : Image),
          stitch_multiple_images corr t loads = .ok res →
            (∀ img : Image, some img ∈ loads → img.height ≤ res.height)
              ∧ res.height ≤ ((loads.filterMap id).map Image.height).sum) := by
  have hloop : ∀ (acc : Image) (l : List (Option Image)) (res : Image),
      stitchLoop corr t acc l = .ok res →
        acc.height ≤ res.height
          ∧ res.height ≤ acc.height + ((l.filterMap id).map Image.height).sum
          ∧ ∀ img : Image, some img ∈ l → img.height ≤ res.height := by
    intro acc l res h
    obtain ⟨res', hres', hmono, hbound, hmem⟩ := stitchLoop_total corr t l acc
    rw [h] at hres'
    obtain rfl := Except.ok.inj hres'
    exact ⟨hmono, hbound, hmem⟩
  refine ⟨fun acc l res h => (hloop acc l res h).1, ?_⟩
  intro loads res h
  cases loads with
  | nil => exact absurd h (by simp [stitch_multiple_images])
  | cons a rest =>
    cases rest with
    | nil =>
      cases a with
      | none => exact absurd h (by simp [stitch_multiple_images])
      | some img =>
        have he : stitch_multiple_images corr t [some img] = .ok img := rfl
        rw [he] at h
        obtain rfl := Except.ok.inj h
        constructor
        · intro i hi
          rcases List.mem_cons.mp hi with hc | hc
          · obtain rfl := Option.some.inj hc
            exact le_refl _
          · cases hc
        · simp
    | cons b rest' =>
      cases a with
      | none =>
        have he : stitch_multiple_images corr t (none :: b :: rest')
            = .error .unreadableFirst := rfl
        rw [he] at h
        exact absurd h (by simp)
      | some first =>
        have he : stitch_multiple_images corr t (some first :: b :: rest')
            = stitchLoop corr t first (b :: rest') := rfl
        rw [he] at h
        obtain ⟨hmono, hbound, hmem⟩ := hloop first (b :: rest') res h
        constructor
        · intro i hi
          rcases List.mem_cons.mp hi with hc | hc
          · obtain rfl := Option.some.inj hc
            exact hmono
          · exact hmem i hc
        · calc res.height
              ≤ first.height + (((b :: rest').filterMap id).map Image.height).sum :=
                hbound
            _ = (((some first :: b :: rest').filterMap id).map Image.height).sum := by
                simp

/-- Correlation oracle on image pairs used by pipeline witnesses: always 0, so
no overlap is ever accepted. -/
def corrPairZero : Image → Image → Nat → ℚ := fun _ _ _ => 0

/-- Witness for C4: folding a 5-row and a 7-row buffer (no overlap accepted)
gives a 12-row composite, bounded below by each input and above by the sum. -/
theorem claim_monotone_height_growth_witness :
    (⟨5, 3⟩ : Image).height ≤ (⟨12, 3⟩ : Image).height
      ∧ ((∀ img : Image,
            some img ∈ [some (⟨5, 3⟩ : Image), some ⟨7, 3⟩] →
              img.height ≤ (⟨12, 3⟩ : Image).height)
          ∧ (⟨12, 3⟩ : Image).height
              ≤ ((([some (⟨5, 3⟩ : Image), some ⟨7, 3⟩]).filterMap id).map
                  Image.height).sum) :=
  ⟨(claim_monotone_height_growth corrPairZero 1).1 ⟨5, 3⟩ [some ⟨7, 3⟩] ⟨12, 3⟩
      rfl,
   (claim_monotone_height_growth corrPairZero 1).2
      [some ⟨5, 3⟩, some ⟨7, 3⟩] ⟨12, 3⟩ rfl⟩

/-- Claim C5: an unreadable load after the first is skipped (the pipeline
result equals the pipeline on the readable inputs in order, and no exception
is raised), while an unreadable very first load is fatal. -/
theorem claim_skip_on_failure (corr : Image → Image → Nat → ℚ) (t : ℚ)
    (f : Image) (rest tail : List (Option Image)) :
    ((∃ res : Image, stitch_multiple_images corr t (some f :: rest) = .ok res)
      ∧ stitch_multiple_images corr t (some f :: rest)
          = stitch_multiple_images corr t (some f :: (rest.filterMap id).map some))
      ∧ stitch_multiple_images corr t (none :: tail) = .error .unreadableFirst := by
  refine ⟨⟨?_, ?_⟩, ?_⟩
  · cases rest with
    | nil => exact ⟨f, rfl⟩
    | cons b rest' =>
      obtain ⟨res, hres, _⟩ := stitchLoop_total corr t (b :: rest') f
      exact ⟨res, hres⟩
  · cases rest with
    | nil => rfl
    | cons b rest' =>
      have hl : stitch_multiple_images corr t (some f :: b :: rest')
          = stitchLoop corr t f (b :: rest') := rfl
      rw [hl, stitchLoop_filterMap]
      cases hfm : (b :: rest').filterMap id with
      | nil => rfl
      | cons c m => rfl
  · cases tail with
    | nil => rfl
    | cons x xs => rfl
